import Mathlib

/-!
Verification of the Library Synchronization & Local Cache Engine spec against the
repository sources. The React presentation layer (frontend/src) is embedded directly;
the backend engine (storage, URL resolver, transcript cache, facade) is not among the
provided sources, so those parts are modelled from the spec where a claim needs them.
-/

/-! ## Pagination control (frontend/src/components/VideoList.jsx) -/

/-- Embeds the constant perPage = 50 of VideoList.jsx; the client always requests
per_page = 50 in the videos fetch. -/
def perPage : Nat := 50

/-- Embeds maxVisible = 10 of renderPaginationItems in VideoList.jsx. -/
def maxVisible : Int := 10

/-- Embeds the startPage/endPage computation of renderPaginationItems in VideoList.jsx:
startPage = max(1, currentPage - floor(maxVisible/2)); endPage = min(totalPages,
startPage + maxVisible - 1); startPage adjusted to max(1, endPage - maxVisible + 1)
when the window is short near the end. -/
def paginationWindow (currentPage totalPages : Int) : Int × Int :=
  let startPage0 := max 1 (currentPage - maxVisible / 2)
  let endPage := min totalPages (startPage0 + maxVisible - 1)
  let startPage :=
    if endPage - startPage0 < maxVisible - 1 then max 1 (endPage - maxVisible + 1)
    else startPage0
  (startPage, endPage)

/-- Embeds the numbered Pagination.Item loop of renderPaginationItems: one button per
page from startPage to endPage inclusive. -/
def paginationItems (currentPage totalPages : Int) : List Int :=
  let w := paginationWindow currentPage totalPages
  (List.range (w.2 - w.1 + 1).toNat).map (fun i : Nat => w.1 + (i : Int))

/-- Embeds the disabled flag of the First and Prev buttons: currentPage === 1. -/
def firstPrevDisabled (currentPage : Int) : Bool :=
  currentPage == 1

/-- Embeds the disabled flag of the Next and Last buttons: currentPage === totalPages. -/
def nextLastDisabled (currentPage totalPages : Int) : Bool :=
  currentPage == totalPages

/-! ## Paginated video listing (Storage Engine, spec section 4.2) -/

/-- A stored video row as listed by the backend; only identity matters for the
pagination claims. -/
structure VideoItem where
  id : String
  title : String
  deriving Repr, DecidableEq

/-- Modelled from the spec: the Storage Engine operation
ListVideos(page, perPage) -> (items, totalCount, totalPages), with totalPages =
ceil(totalCount / perPage) and a page beyond range returning an empty slice rather
than an error. The backend implementation is not among the provided sources. -/
def listVideos (lib : List VideoItem) (page pp : Nat) : List VideoItem × Nat × Nat :=
  let totalCount := lib.length
  let totalPages := (totalCount + pp - 1) / pp
  let items := (lib.drop ((page - 1) * pp)).take pp
  (items, totalCount, totalPages)

/-- A concrete library of 120 distinct videos, used by the spec scenario. -/
def library120 : List VideoItem :=
  (List.range 120).map (fun i => { id := toString i, title := toString i })

theorem library120_length : library120.length = 120 := by
  simp [library120]

theorem paginationWindow_spec (c T : Int) (h1 : 1 ≤ c) (h2 : c ≤ T) :
    (paginationWindow c T).1 ≤ c ∧ c ≤ (paginationWindow c T).2 ∧
    (paginationWindow c T).2 - (paginationWindow c T).1 + 1 = min T 10 := by
  dsimp only [paginationWindow, maxVisible]
  split <;> omega

/-- C10: for every totalPages >= 1 and every currentPage with
1 <= currentPage <= totalPages, the pagination control of VideoList.jsx renders
exactly min(totalPages, 10) numbered page buttons forming a contiguous range of page
numbers that contains currentPage; First and Prev are disabled exactly when
currentPage = 1 and Next and Last exactly when currentPage = totalPages. -/
theorem paginationItems_count_window_disabled (c T : Int) (h1 : 1 ≤ c) (h2 : c ≤ T) :
    ((paginationItems c T).length : Int) = min T 10 ∧
    (∀ p : Int, p ∈ paginationItems c T ↔
      (paginationWindow c T).1 ≤ p ∧ p ≤ (paginationWindow c T).2) ∧
    (paginationWindow c T).1 ≤ c ∧ c ≤ (paginationWindow c T).2 ∧
    (firstPrevDisabled c = true ↔ c = 1) ∧
    (nextLastDisabled c T = true ↔ c = T) := by
  obtain ⟨hlo, hhi, hlen⟩ := paginationWindow_spec c T h1 h2
  refine ⟨?_, ?_, hlo, hhi, ?_, ?_⟩
  · simp only [paginationItems, List.length_map, List.length_range]
    omega
  · intro p
    simp only [paginationItems, List.mem_map, List.mem_range]
    constructor
    · rintro ⟨i, hi, rfl⟩
      omega
    · intro hp
      exact ⟨(p - (paginationWindow c T).1).toNat, by omega, by omega⟩
  · simp [firstPrevDisabled]
  · simp [nextLastDisabled]

/-- Witness for C10 at currentPage = 3, totalPages = 7. -/
theorem paginationItems_count_window_disabled_witness :
    (1 : Int) ≤ 3 ∧ (3 : Int) ≤ 7 ∧
    (((paginationItems 3 7).length : Int) = min 7 10 ∧
      (∀ p : Int, p ∈ paginationItems 3 7 ↔
        (paginationWindow 3 7).1 ≤ p ∧ p ≤ (paginationWindow 3 7).2) ∧
      (paginationWindow 3 7).1 ≤ 3 ∧ (3 : Int) ≤ (paginationWindow 3 7).2 ∧
      (firstPrevDisabled 3 = true ↔ (3 : Int) = 1) ∧
      (nextLastDisabled 3 7 = true ↔ (3 : Int) = 7)) :=
  ⟨by norm_num, by norm_num,
    paginationItems_count_window_disabled 3 7 (by norm_num) (by norm_num)⟩

theorem le_pred_div_mul (n pp : Nat) (hpp : 0 < pp) :
    n ≤ ((n + pp - 1) / pp) * pp := by
  have hqr := Nat.div_add_mod (n + pp - 1) pp
  have hr : (n + pp - 1) % pp < pp := Nat.mod_lt _ hpp
  rw [Nat.mul_comm]
  omega

theorem pred_div_eq_ceil (n pp : Nat) (hpp : 0 < pp) :
    (n + pp - 1) / pp = ⌈(n : ℚ) / (pp : ℚ)⌉₊ := by
  have hppQ : (0 : ℚ) < pp := by exact_mod_cast hpp
  apply le_antisymm
  · rw [← Nat.ceilDiv_eq_add_pred_div, ceilDiv_le_iff_le_smul hpp]
    have h1 : (n : ℚ) / (pp : ℚ) ≤ (⌈(n : ℚ) / (pp : ℚ)⌉₊ : ℚ) := Nat.le_ceil _
    rw [div_le_iff₀ hppQ] at h1
    have h2 : (n : ℚ) ≤ ((pp * ⌈(n : ℚ) / (pp : ℚ)⌉₊ : ℕ) : ℚ) := by push_cast; linarith
    have h3 := Nat.cast_le.mp h2
    simpa [smul_eq_mul] using h3
  · rw [Nat.ceil_le, div_le_iff₀ hppQ]
    have h4 := le_pred_div_mul n pp hpp
    exact_mod_cast Nat.cast_le.mpr h4

/-- C2: the client always requests per_page = 50 (VideoList.jsx); for every call of
the paginated listing with positive perPage, totalPages = ceil(totalCount / perPage)
and a page beyond range returns an empty slice rather than an error; against a
library of 120 videos, page 3 with perPage 50 returns 20 items and totalPages = 3,
and page 4 returns an empty slice. -/
theorem listVideos_pagination_spec :
    perPage = 50 ∧
    (∀ (lib : List VideoItem) (page pp : Nat), 0 < pp →
      (listVideos lib page pp).2.2 = ⌈(lib.length : ℚ) / (pp : ℚ)⌉₊ ∧
      (listVideos lib page pp).2.1 = lib.length ∧
      ((listVideos lib page pp).2.2 < page → (listVideos lib page pp).1 = [])) ∧
    (listVideos library120 3 perPage).1.length = 20 ∧
    (listVideos library120 3 perPage).2.2 = 3 ∧
    (listVideos library120 4 perPage).1 = [] := by
  refine ⟨rfl, ?_, ?_, ?_, ?_⟩
  · intro lib page pp hpp
    refine ⟨pred_div_eq_ceil lib.length pp hpp, rfl, ?_⟩
    intro hbeyond
    have hcover := le_pred_div_mul lib.length pp hpp
    have hlen : lib.length ≤ (page - 1) * pp := by
      have hmono : ((lib.length + pp - 1) / pp) * pp ≤ (page - 1) * pp :=
        Nat.mul_le_mul_right pp (by simpa [listVideos] using Nat.le_sub_one_of_lt hbeyond)
      omega
    simp only [listVideos]
    rw [List.drop_eq_nil_of_le (by simpa using hlen)]
    simp
  · simp [listVideos, perPage, library120]
  · simp [listVideos, perPage, library120]
  · simp only [listVideos, perPage, library120]
    rw [List.drop_eq_nil_of_le (by simp)]
    simp

/-- Witness for C2 instantiating the universally quantified part at a concrete
library and perPage. -/
theorem listVideos_pagination_spec_witness :
    (0 : Nat) < 50 ∧
    ((listVideos library120 4 50).2.2 = ⌈((library120.length : ℚ)) / (50 : ℚ)⌉₊ ∧
      (listVideos library120 4 50).2.1 = library120.length ∧
      ((listVideos library120 4 50).2.2 < 4 → (listVideos library120 4 50).1 = [])) :=
  ⟨by norm_num, (listVideos_pagination_spec.2.1 library120 4 50 (by norm_num))⟩

/-! ## Storage Engine and Sync Orchestrators (spec sections 3, 4.2, 4.3, 4.4) -/

/-- A chapter or timestamp row owned by a video (spec section 3). -/
structure Chapter where
  start_time_seconds : Nat
  title : String
  text : Option String
  deriving Repr, DecidableEq

/-- A stored Channel row (spec section 3); the placeholder flag marks the minimal
state created when a video is synced before its channel. -/
structure ChannelRow where
  name : String
  description : String
  subscriber_count : Option Nat
  video_count : Option Nat
  thumbnail_url : Option String
  placeholder : Bool
  deriving Repr, DecidableEq

/-- A stored Video row (spec section 3), including the download state. -/
structure VideoRow where
  channel_id : String
  title : String
  description : String
  view_count : Option Nat
  like_count : Option Nat
  downloaded : Bool
  file_path : Option String
  deriving Repr, DecidableEq

/-- A raw video payload from the Metadata Provider (spec section 6):
VideoPayload with metadata, tags and chapters. -/
structure VideoPayload where
  id : String
  channel_id : String
  title : String
  description : String
  view_count : Option Nat
  like_count : Option Nat
  tags : List String
  chapters : List Chapter
  deriving Repr, DecidableEq

/-- Modelled from the spec: the durable normalized store of section 3, the five
entity tables keyed by canonical ID, represented as association lists. The backend
storage implementation is not among the provided sources. -/
structure Store where
  channels : List (String × ChannelRow)
  videos : List (String × VideoRow)
  tags : List (String × List String)
  timestamps : List (String × List Chapter)
  transcripts : List (String × Option String)
  deriving Repr, DecidableEq

/-- Modelled from the spec: the atomic upsert-merge of section 4.2 on one table —
insert if absent, else update the row in place, keyed by canonical ID. -/
def upsertRow (k : String) (v : α) : List (String × α) → List (String × α)
  | [] => [(k, v)]
  | (k2, v2) :: rest => if k2 = k then (k, v) :: rest else (k2, v2) :: upsertRow k v rest

/-- Number of rows of a table carrying a given canonical ID. -/
def countRows (k : String) (t : List (String × α)) : Nat :=
  (t.filter (fun r => r.1 == k)).length

theorem countRows_eq_zero_of_not_mem (k : String) (t : List (String × α))
    (h : k ∉ t.map Prod.fst) : countRows k t = 0 := by
  induction t with
  | nil => rfl
  | cons hd tl ih =>
    simp only [List.map_cons, List.mem_cons, not_or] at h
    simp only [countRows, List.filter_cons]
    have hne : (hd.1 == k) = false := by
      simp only [beq_eq_false_iff_ne, ne_eq]
      exact fun he => h.1 he.symm
    rw [hne]
    exact ih h.2

theorem mem_keys_upsertRow (j k : String) (v : α) (t : List (String × α)) :
    j ∈ (upsertRow k v t).map Prod.fst ↔ j = k ∨ j ∈ t.map Prod.fst := by
  induction t with
  | nil => simp [upsertRow]
  | cons hd tl ih =>
    obtain ⟨k2, v2⟩ := hd
    by_cases hk : k2 = k
    · subst hk
      simp [upsertRow]
    · simp [upsertRow, hk, ih]
      tauto

theorem keys_nodup_upsertRow (k : String) (v : α) (t : List (String × α))
    (h : (t.map Prod.fst).Nodup) : ((upsertRow k v t).map Prod.fst).Nodup := by
  induction t with
  | nil => simp [upsertRow]
  | cons hd tl ih =>
    obtain ⟨k2, v2⟩ := hd
    simp only [List.map_cons, List.nodup_cons] at h
    by_cases hk : k2 = k
    · subst hk
      simp only [upsertRow, if_true, eq_self_iff_true, List.map_cons, List.nodup_cons]
      exact ⟨h.1, h.2⟩
    · simp only [upsertRow, if_neg hk, List.map_cons, List.nodup_cons]
      refine ⟨?_, ih h.2⟩
      rw [mem_keys_upsertRow]
      rintro (rfl | hmem)
      · exact hk rfl
      · exact h.1 hmem

theorem countRows_upsertRow_self (k : String) (v : α) (t : List (String × α))
    (h : (t.map Prod.fst).Nodup) : countRows k (upsertRow k v t) = 1 := by
  induction t with
  | nil => simp [upsertRow, countRows]
  | cons hd tl ih =>
    simp only [List.map_cons, List.nodup_cons] at h
    by_cases hk : hd.1 = k
    · simp only [upsertRow, hk, if_pos rfl, countRows, List.filter_cons, beq_self_eq_true,
        if_pos, List.length_cons]
      have : countRows k tl = 0 :=
        countRows_eq_zero_of_not_mem k tl (by rw [← hk]; exact h.1)
      simpa [countRows] using this
    · simp only [upsertRow, if_neg hk, countRows, List.filter_cons]
      have hne : (hd.1 == k) = false := by simpa using hk
      rw [hne]
      exact ih h.2

theorem countRows_le_one_of_nodup (k : String) (t : List (String × α))
    (h : (t.map Prod.fst).Nodup) : countRows k t ≤ 1 := by
  induction t with
  | nil => simp [countRows]
  | cons hd tl ih =>
    simp only [List.map_cons, List.nodup_cons] at h
    simp only [countRows, List.filter_cons]
    by_cases hk : hd.1 = k
    · rw [if_pos (by simpa using hk)]
      have : countRows k tl = 0 :=
        countRows_eq_zero_of_not_mem k tl (by rw [← hk]; exact h.1)
      simpa [countRows] using this
    · rw [if_neg (by simpa using hk)]
      exact ih h.2

theorem upsertRow_idem (k : String) (v : α) (t : List (String × α)) :
    upsertRow k v (upsertRow k v t) = upsertRow k v t := by
  induction t with
  | nil => simp [upsertRow]
  | cons hd tl ih =>
    by_cases hk : hd.1 = k
    · simp [upsertRow, hk]
    · simp [upsertRow, hk, ih]

theorem lookup_upsertRow_self (k : String) (v : α) (t : List (String × α)) :
    (upsertRow k v t).lookup k = some v := by
  induction t with
  | nil => simp [upsertRow, List.lookup]
  | cons hd tl ih =>
    by_cases hk : hd.1 = k
    · simp [upsertRow, hk, List.lookup]
    · simp only [upsertRow, if_neg hk, List.lookup]
      have : (k == hd.1) = false := by
        simp only [beq_eq_false_iff_ne, ne_eq]
        exact fun he => hk he.symm
      rw [this]
      exact ih

theorem mem_upsertRow (r : String × α) (k : String) (v : α) (t : List (String × α))
    (h : r ∈ upsertRow k v t) : r = (k, v) ∨ r ∈ t := by
  induction t with
  | nil => simpa [upsertRow] using h
  | cons hd tl ih =>
    by_cases hk : hd.1 = k
    · simp only [upsertRow, if_pos hk, List.mem_cons] at h
      rcases h with h | h
      · exact Or.inl h
      · exact Or.inr (List.mem_cons_of_mem _ h)
    · simp only [upsertRow, if_neg hk, List.mem_cons] at h
      rcases h with h | h
      · exact Or.inr (h ▸ List.mem_cons_self _ _)
      · rcases ih h with h2 | h2
        · exact Or.inl h2
        · exact Or.inr (List.mem_cons_of_mem _ h2)

theorem lookup_mem (k : String) (v : α) (t : List (String × α))
    (h : t.lookup k = some v) : (k, v) ∈ t := by
  induction t with
  | nil => simp [List.lookup] at h
  | cons hd tl ih =>
    obtain ⟨k2, v2⟩ := hd
    rw [List.lookup] at h
    split at h
    · rename_i heq
      have hk : k = k2 := by simpa using heq
      cases h
      subst hk
      exact List.mem_cons_self _ _
    · exact List.mem_cons_of_mem _ (ih h)

/-- Modelled from the spec: the minimal placeholder Channel row created when a Video
is synced before its Channel (placeholder-then-backfill, spec section 3). -/
def placeholderChannel (cid : String) : ChannelRow :=
  { name := cid, description := "", subscriber_count := none, video_count := none,
    thumbnail_url := none, placeholder := true }

/-- Modelled from the spec: the UpsertVideo merge of section 4.2. The provider
payload is canonical for every field it supplies; the download-state fields are
wholly absent from the payload and therefore do not clobber existing data. -/
def mergeVideoRow (p : VideoPayload) (old : Option VideoRow) : VideoRow :=
  { channel_id := p.channel_id, title := p.title, description := p.description,
    view_count := p.view_count, like_count := p.like_count,
    downloaded := (old.map (fun r => r.downloaded)).getD false,
    file_path := (old.map (fun r => r.file_path)).getD none }

/-- Modelled from the spec: chapters are ordered by start_time_seconds ascending
before persisting (spec sections 3 and 4.5). -/
def sortChapters (cs : List Chapter) : List Chapter :=
  List.insertionSort (fun a b => a.start_time_seconds ≤ b.start_time_seconds) cs

/-- Modelled from the spec: the minimal SyncChannel step of SyncVideo — if the
referenced channel is unknown locally, a placeholder Channel row is upserted first
(spec section 4.3). -/
def syncChannels (p : VideoPayload) (s : Store) : List (String × ChannelRow) :=
  if (s.channels.lookup p.channel_id).isSome then s.channels
  else upsertRow p.channel_id (placeholderChannel p.channel_id) s.channels

/-- Modelled from the spec: SyncVideo(id) of section 4.3 — fetch raw metadata, sync
a placeholder channel when needed, then UpsertVideo as one atomic operation that
replaces the tag set and the timestamp sequence and upserts the video row. -/
def syncVideo (p : VideoPayload) (s : Store) : Store :=
  { channels := syncChannels p s,
    videos := upsertRow p.id (mergeVideoRow p (s.videos.lookup p.id)) s.videos,
    tags := upsertRow p.id p.tags s.tags,
    timestamps := upsertRow p.id (sortChapters p.chapters) s.timestamps,
    transcripts := s.transcripts }

/-- A sequence of video syncs applied in order. -/
def applySyncs (ps : List VideoPayload) (s : Store) : Store :=
  ps.foldl (fun st q => syncVideo q st) s

/-- Every entity table has pairwise distinct canonical IDs. -/
def storeKeysNodup (s : Store) : Prop :=
  (s.channels.map Prod.fst).Nodup ∧ (s.videos.map Prod.fst).Nodup ∧
  (s.tags.map Prod.fst).Nodup ∧ (s.timestamps.map Prod.fst).Nodup ∧
  (s.transcripts.map Prod.fst).Nodup

theorem lookup_syncChannels_isSome (p : VideoPayload) (s : Store) :
    ((syncChannels p s).lookup p.channel_id).isSome = true := by
  unfold syncChannels
  by_cases hc : (s.channels.lookup p.channel_id).isSome = true
  · rw [if_pos hc]
    exact hc
  · rw [if_neg hc, lookup_upsertRow_self]
    rfl

theorem keys_nodup_syncChannels (p : VideoPayload) (s : Store)
    (h : (s.channels.map Prod.fst).Nodup) :
    ((syncChannels p s).map Prod.fst).Nodup := by
  unfold syncChannels
  split
  · exact h
  · exact keys_nodup_upsertRow _ _ _ h

theorem storeKeysNodup_syncVideo (p : VideoPayload) (s : Store)
    (h : storeKeysNodup s) : storeKeysNodup (syncVideo p s) := by
  obtain ⟨h1, h2, h3, h4, h5⟩ := h
  exact ⟨keys_nodup_syncChannels p s h1, keys_nodup_upsertRow _ _ _ h2,
    keys_nodup_upsertRow _ _ _ h3, keys_nodup_upsertRow _ _ _ h4, h5⟩

theorem storeKeysNodup_applySyncs (ps : List VideoPayload) (s : Store)
    (h : storeKeysNodup s) : storeKeysNodup (applySyncs ps s) := by
  induction ps generalizing s with
  | nil => exact h
  | cons q qs ih => exact ih (syncVideo q s) (storeKeysNodup_syncVideo q s h)

theorem mergeVideoRow_absorb (p : VideoPayload) (o : Option VideoRow) :
    mergeVideoRow p (some (mergeVideoRow p o)) = mergeVideoRow p o := rfl

theorem syncVideo_idem (p : VideoPayload) (s : Store) :
    syncVideo p (syncVideo p s) = syncVideo p s := by
  show Store.mk _ _ _ _ _ = Store.mk _ _ _ _ _
  congr 1
  · show syncChannels p (syncVideo p s) = syncChannels p s
    have hch : (syncVideo p s).channels = syncChannels p s := rfl
    unfold syncChannels
    rw [hch, if_pos (lookup_syncChannels_isSome p s)]
    rfl
  · show upsertRow p.id (mergeVideoRow p ((syncVideo p s).videos.lookup p.id))
        (syncVideo p s).videos = (syncVideo p s).videos
    have hv : (syncVideo p s).videos =
        upsertRow p.id (mergeVideoRow p (s.videos.lookup p.id)) s.videos := rfl
    rw [hv, lookup_upsertRow_self, mergeVideoRow_absorb, upsertRow_idem]
  · exact upsertRow_idem _ _ _
  · exact upsertRow_idem _ _ _

theorem countRows_pos_of_mem (k : String) (v : α) (t : List (String × α))
    (h : (k, v) ∈ t) : 1 ≤ countRows k t := by
  have hmem : (k, v) ∈ t.filter (fun r => r.1 == k) :=
    List.mem_filter.mpr ⟨h, by simp⟩
  exact Nat.succ_le_of_lt (List.length_pos_of_mem hmem)

theorem countRows_eq_one_of_lookup (k : String) (t : List (String × α))
    (hl : (t.lookup k).isSome = true) (h : (t.map Prod.fst).Nodup) :
    countRows k t = 1 := by
  obtain ⟨v, hv⟩ := Option.isSome_iff_exists.mp hl
  have h1 := countRows_pos_of_mem k v t (lookup_mem k v t hv)
  have h2 := countRows_le_one_of_nodup k t h
  omega

/-- C1: syncing the same canonical ID twice in a row with unchanged Provider data is
idempotent and leaves exactly one row keyed by that ID in the video, tag and
timestamp tables and exactly one row for its channel; after any sequence of syncs no
entity table contains duplicate rows for the same canonical ID (upsert, never
insert-duplicate). -/
theorem syncVideo_upsert_idempotent_no_duplicates (p : VideoPayload) (s : Store)
    (h : storeKeysNodup s) :
    syncVideo p (syncVideo p s) = syncVideo p s ∧
    countRows p.id (syncVideo p (syncVideo p s)).videos = 1 ∧
    countRows p.id (syncVideo p (syncVideo p s)).tags = 1 ∧
    countRows p.id (syncVideo p (syncVideo p s)).timestamps = 1 ∧
    countRows p.channel_id (syncVideo p (syncVideo p s)).channels = 1 ∧
    (∀ ps : List VideoPayload, storeKeysNodup (applySyncs ps s)) ∧
    (∀ (ps : List VideoPayload) (k : String),
      countRows k (applySyncs ps s).channels ≤ 1 ∧
      countRows k (applySyncs ps s).videos ≤ 1 ∧
      countRows k (applySyncs ps s).tags ≤ 1 ∧
      countRows k (applySyncs ps s).timestamps ≤ 1 ∧
      countRows k (applySyncs ps s).transcripts ≤ 1) := by
  obtain ⟨h1, h2, h3, h4, h5⟩ := h
  have hidem := syncVideo_idem p s
  rw [hidem]
  refine ⟨rfl, ?_, ?_, ?_, ?_, ?_, ?_⟩
  · exact countRows_upsertRow_self p.id _ s.videos h2
  · exact countRows_upsertRow_self p.id _ s.tags h3
  · exact countRows_upsertRow_self p.id _ s.timestamps h4
  · exact countRows_eq_one_of_lookup p.channel_id _
      (lookup_syncChannels_isSome p s) (keys_nodup_syncChannels p s h1)
  · exact fun ps => storeKeysNodup_applySyncs ps s ⟨h1, h2, h3, h4, h5⟩
  · intro ps k
    obtain ⟨g1, g2, g3, g4, g5⟩ := storeKeysNodup_applySyncs ps s ⟨h1, h2, h3, h4, h5⟩
    exact ⟨countRows_le_one_of_nodup k _ g1, countRows_le_one_of_nodup k _ g2,
      countRows_le_one_of_nodup k _ g3, countRows_le_one_of_nodup k _ g4,
      countRows_le_one_of_nodup k _ g5⟩

/-- The empty library store. -/
def emptyStore : Store :=
  { channels := [], videos := [], tags := [], timestamps := [], transcripts := [] }

/-- A sample provider payload used by witnesses. -/
def pSample : VideoPayload :=
  { id := "vid1", channel_id := "chan1", title := "A title", description := "",
    view_count := some 10, like_count := none, tags := ["tag1", "tag2"],
    chapters := [{ start_time_seconds := 0, title := "intro", text := none }] }

/-- Witness for C1 at a concrete payload and the empty store. -/
theorem syncVideo_upsert_idempotent_no_duplicates_witness :
    storeKeysNodup emptyStore ∧
    (syncVideo pSample (syncVideo pSample emptyStore) = syncVideo pSample emptyStore ∧
      countRows pSample.id (syncVideo pSample (syncVideo pSample emptyStore)).videos = 1 ∧
      countRows pSample.id (syncVideo pSample (syncVideo pSample emptyStore)).tags = 1 ∧
      countRows pSample.id
        (syncVideo pSample (syncVideo pSample emptyStore)).timestamps = 1 ∧
      countRows pSample.channel_id
        (syncVideo pSample (syncVideo pSample emptyStore)).channels = 1 ∧
      (∀ ps : List VideoPayload, storeKeysNodup (applySyncs ps emptyStore)) ∧
      (∀ (ps : List VideoPayload) (k : String),
        countRows k (applySyncs ps emptyStore).channels ≤ 1 ∧
        countRows k (applySyncs ps emptyStore).videos ≤ 1 ∧
        countRows k (applySyncs ps emptyStore).tags ≤ 1 ∧
        countRows k (applySyncs ps emptyStore).timestamps ≤ 1 ∧
        countRows k (applySyncs ps emptyStore).transcripts ≤ 1)) :=
  ⟨⟨List.nodup_nil, List.nodup_nil, List.nodup_nil, List.nodup_nil, List.nodup_nil⟩,
    syncVideo_upsert_idempotent_no_duplicates pSample emptyStore
      ⟨List.nodup_nil, List.nodup_nil, List.nodup_nil, List.nodup_nil, List.nodup_nil⟩⟩

/-! ## Media Downloader and download state (spec section 4.4, Sidebar.jsx) -/

/-- Modelled from the spec: Download(videoId) records file_path and downloaded=true
via the Storage Engine in the same logical operation (spec section 4.4); downloading
an unknown video records nothing. -/
def download (id fp : String) (s : Store) : Store :=
  match s.videos.lookup id with
  | none => s
  | some r =>
      { s with
        videos := upsertRow id { r with downloaded := true, file_path := some fp } s.videos }

/-- A library mutation relevant to the download-state invariant. -/
inductive LibOp where
  | sync (p : VideoPayload)
  | download (id fp : String)

def applyOp (o : LibOp) (s : Store) : Store :=
  match o with
  | .sync p => syncVideo p s
  | .download id fp => download id fp s

def applyOps (os : List LibOp) (s : Store) : Store :=
  os.foldl (fun st o => applyOp o st) s

/-- Every stored video with downloaded = true has a non-null file_path, and
file_path is set only when the video is downloaded. -/
def downloadInv (s : Store) : Prop :=
  ∀ r ∈ s.videos, (r.2.downloaded = true → r.2.file_path ≠ none) ∧
    (r.2.file_path ≠ none → r.2.downloaded = true)

theorem downloadInv_syncVideo (p : VideoPayload) (s : Store)
    (h : downloadInv s) : downloadInv (syncVideo p s) := by
  intro r hr
  have hr2 : r ∈ upsertRow p.id (mergeVideoRow p (s.videos.lookup p.id)) s.videos := hr
  rcases mem_upsertRow r _ _ _ hr2 with h1 | h1
  · subst h1
    cases hlook : List.lookup p.id s.videos with
    | none => simp [mergeVideoRow, hlook]
    | some o =>
      have hmem := lookup_mem p.id o s.videos hlook
      have hinv := h (p.id, o) hmem
      simpa [mergeVideoRow, hlook] using hinv
  · exact h r h1

theorem downloadInv_download (id fp : String) (s : Store)
    (h : downloadInv s) : downloadInv (download id fp s) := by
  intro r hr
  cases hlook : List.lookup id s.videos with
  | none =>
    have heq : download id fp s = s := by unfold download; rw [hlook]
    rw [heq] at hr
    exact h r hr
  | some r0 =>
    have heq : download id fp s =
        { s with
          videos := upsertRow id { r0 with downloaded := true, file_path := some fp }
            s.videos } := by
      unfold download; rw [hlook]
    rw [heq] at hr
    rcases mem_upsertRow r _ _ _ hr with h1 | h1
    · subst h1
      simp
    · exact h r h1

theorem downloadInv_applyOps (os : List LibOp) (s : Store)
    (h : downloadInv s) : downloadInv (applyOps os s) := by
  induction os generalizing s with
  | nil => exact h
  | cons o os ih =>
    cases o with
    | sync p => exact ih (syncVideo p s) (downloadInv_syncVideo p s h)
    | download id fp => exact ih (download id fp s) (downloadInv_download id fp s h)

/-- JavaScript truthiness of a nullable string JSON field: null and the empty string
are falsy. -/
def jsTruthyStr : Option String → Bool
  | none => false
  | some t => t != ""

/-- Embeds the render condition of the File Path section in VideoDetailView
(Sidebar.jsx line 628 and the unnamed variant): details.downloaded === 1 &&
details.file_path. -/
def showFilePathSection (downloaded : Int) (file_path : Option String) : Bool :=
  (downloaded == 1) && jsTruthyStr file_path

/-- C5: for every stored video, downloaded = true implies file_path is non-null and
file_path is set only when downloaded, preserved by every sequence of syncs and
downloads; the detail view renders the file path section exactly when downloaded
equals 1 and file_path is a non-empty string. -/
theorem downloaded_implies_file_path (s : Store) (h : downloadInv s) :
    (∀ os : List LibOp, downloadInv (applyOps os s)) ∧
    (∀ (d : Int) (fp : Option String),
      showFilePathSection d fp = true ↔ d = 1 ∧ ∃ t, fp = some t ∧ t ≠ "") := by
  refine ⟨fun os => downloadInv_applyOps os s h, ?_⟩
  intro d fp
  cases fp with
  | none => simp [showFilePathSection, jsTruthyStr]
  | some t => simp [showFilePathSection, jsTruthyStr]

/-- Witness for C5 at the empty store. -/
theorem downloaded_implies_file_path_witness :
    downloadInv emptyStore ∧
    ((∀ os : List LibOp, downloadInv (applyOps os emptyStore)) ∧
      (∀ (d : Int) (fp : Option String),
        showFilePathSection d fp = true ↔ d = 1 ∧ ∃ t, fp = some t ∧ t ≠ "")) :=
  ⟨fun r hr => absurd hr (List.not_mem_nil r),
    downloaded_implies_file_path emptyStore (fun r hr => absurd hr (List.not_mem_nil r))⟩

/-! ## URL Resolver (spec section 4.1) -/

/-- The kind of entity a YouTube URL designates. -/
inductive EntityKind where
  | channel
  | video
  | playlist
  deriving Repr, DecidableEq

/-- A URL split into scheme, host, path segments and query parameters in order. -/
structure UrlParts where
  scheme : String
  host : String
  path : List String
  query : List (String × String)
  deriving Repr, DecidableEq

/-- Host strings recognized as YouTube site variants. -/
def recognizedHost (h : String) : Bool :=
  h == "youtube.com" || h == "www.youtube.com" || h == "m.youtube.com"

/-- Modelled from the spec: Resolve(url) -> (EntityKind, CanonicalID) | ParseError
(spec section 4.1) — recognizes channel URLs (by handle, by legacy username, by raw
channel ID), video URLs (standard watch URLs and shorts URLs), and playlist URLs;
purely syntactic; none models ParseError. The resolver implementation is not among
the provided sources. -/
def resolve (u : UrlParts) : Option (EntityKind × String) :=
  if recognizedHost u.host then
    match u.path with
    | ["watch"] => (u.query.lookup "v").map (fun vid => (EntityKind.video, vid))
    | ["playlist"] => (u.query.lookup "list").map (fun pl => (EntityKind.playlist, pl))
    | ["shorts", vid] => some (EntityKind.video, vid)
    | ["channel", cid] => some (EntityKind.channel, cid)
    | ["user", name] => some (EntityKind.channel, name)
    | ["c", name] => some (EntityKind.channel, name)
    | [seg] => if seg.startsWith "@" then some (EntityKind.channel, seg.drop 1) else none
    | _ => none
  else if u.host == "youtu.be" then
    match u.path with
    | [vid] => some (EntityKind.video, vid)
    | _ => none
  else none

theorem lookup_eq_none_of_no_key (key : String) (e : List (String × String))
    (he : ∀ kv ∈ e, kv.1 ≠ key) : e.lookup key = none := by
  induction e with
  | nil => rfl
  | cons hd tl ih =>
    obtain ⟨k2, v2⟩ := hd
    rw [List.lookup]
    have hne : (key == k2) = false := by
      simp only [beq_eq_false_iff_ne, ne_eq]
      exact fun h => he (k2, v2) (List.mem_cons_self _ _) h.symm
    rw [hne]
    exact ih fun kv hm => he kv (List.mem_cons_of_mem _ hm)

theorem lookup_append_no_key_left (key : String) (e q : List (String × String))
    (he : ∀ kv ∈ e, kv.1 ≠ key) : (e ++ q).lookup key = q.lookup key := by
  induction e with
  | nil => rfl
  | cons hd tl ih =>
    obtain ⟨k2, v2⟩ := hd
    rw [List.cons_append, List.lookup]
    have hne : (key == k2) = false := by
      simp only [beq_eq_false_iff_ne, ne_eq]
      exact fun h => he (k2, v2) (List.mem_cons_self _ _) h.symm
    rw [hne]
    exact ih fun kv hm => he kv (List.mem_cons_of_mem _ hm)

theorem lookup_append_no_key_right (key : String) (q e : List (String × String))
    (he : ∀ kv ∈ e, kv.1 ≠ key) : (q ++ e).lookup key = q.lookup key := by
  induction q with
  | nil => exact lookup_eq_none_of_no_key key e he
  | cons hd tl ih =>
    obtain ⟨k2, v2⟩ := hd
    rw [List.cons_append, List.lookup, List.lookup]
    cases hbeq : (key == k2) with
    | true => rfl
    | false => exact ih

theorem resolve_scheme_irrelevant (sch1 sch2 host : String) (path : List String)
    (query : List (String × String)) :
    resolve ⟨sch1, host, path, query⟩ = resolve ⟨sch2, host, path, query⟩ := rfl

theorem resolve_host_variant (sch host1 host2 : String) (path : List String)
    (query : List (String × String)) (h1 : recognizedHost host1 = true)
    (h2 : recognizedHost host2 = true) :
    resolve ⟨sch, host1, path, query⟩ = resolve ⟨sch, host2, path, query⟩ := by
  unfold resolve
  simp only [h1, h2, if_true]

theorem resolve_query_lookup (sch host : String) (path : List String)
    (q1 q2 : List (String × String)) (hv : q1.lookup "v" = q2.lookup "v")
    (hl : q1.lookup "list" = q2.lookup "list") :
    resolve ⟨sch, host, path, q1⟩ = resolve ⟨sch, host, path, q2⟩ := by
  unfold resolve
  dsimp only
  split
  · split
    · rw [hv]
    · rw [hl]
    all_goals rfl
  all_goals rfl

theorem resolve_watch (sch host : String) (q : List (String × String))
    (hh : recognizedHost host = true) :
    resolve ⟨sch, host, ["watch"], q⟩ =
      (q.lookup "v").map (fun vid => (EntityKind.video, vid)) := by
  unfold resolve
  simp only [hh, if_true]

theorem resolve_playlist (sch host : String) (q : List (String × String))
    (hh : recognizedHost host = true) :
    resolve ⟨sch, host, ["playlist"], q⟩ =
      (q.lookup "list").map (fun pl => (EntityKind.playlist, pl)) := by
  unfold resolve
  simp only [hh, if_true]

theorem resolve_shorts (sch host vid : String) (q : List (String × String))
    (hh : recognizedHost host = true) :
    resolve ⟨sch, host, ["shorts", vid], q⟩ = some (EntityKind.video, vid) := by
  unfold resolve
  simp only [hh, if_true]

theorem resolve_channel_id (sch host cid : String) (q : List (String × String))
    (hh : recognizedHost host = true) :
    resolve ⟨sch, host, ["channel", cid], q⟩ = some (EntityKind.channel, cid) := by
  unfold resolve
  simp only [hh, if_true]

theorem resolve_user (sch host name : String) (q : List (String × String))
    (hh : recognizedHost host = true) :
    resolve ⟨sch, host, ["user", name], q⟩ = some (EntityKind.channel, name) := by
  unfold resolve
  simp only [hh, if_true]

theorem resolve_legacy_c (sch host name : String) (q : List (String × String))
    (hh : recognizedHost host = true) :
    resolve ⟨sch, host, ["c", name], q⟩ = some (EntityKind.channel, name) := by
  unfold resolve
  simp only [hh, if_true]

theorem resolve_handle (sch host seg : String) (q : List (String × String))
    (hh : recognizedHost host = true) (hat : seg.startsWith "@" = true)
    (hw : seg ≠ "watch") (hp : seg ≠ "playlist") :
    resolve ⟨sch, host, [seg], q⟩ = some (EntityKind.channel, seg.drop 1) := by
  unfold resolve
  simp only [hh, if_true]
  split <;> simp_all

theorem resolve_short_host (sch vid : String) (q : List (String × String)) :
    resolve ⟨sch, "youtu.be", [vid], q⟩ = some (EntityKind.video, vid) := by
  unfold resolve
  simp [recognizedHost]

/-- C6: Resolve is deterministic and purely syntactic — two runs on the same parsed
URL give the same (kind, id); the result ignores the scheme, is unchanged across
recognized host variants, is unchanged by surrounding query parameters other than
the significant one, and each recognized channel, video and playlist shape resolves
to its canonical (kind, id) with no network call (the model is a pure function). -/
theorem resolve_deterministic_syntactic :
    (∀ u1 u2 : UrlParts, u1 = u2 → resolve u1 = resolve u2) ∧
    (∀ (sch1 sch2 host : String) (path : List String) (query : List (String × String)),
      resolve ⟨sch1, host, path, query⟩ = resolve ⟨sch2, host, path, query⟩) ∧
    (∀ (sch host1 host2 : String) (path : List String) (query : List (String × String)),
      recognizedHost host1 = true → recognizedHost host2 = true →
      resolve ⟨sch, host1, path, query⟩ = resolve ⟨sch, host2, path, query⟩) ∧
    (∀ (sch host : String) (path : List String) (q e : List (String × String)),
      (∀ kv ∈ e, kv.1 ≠ "v" ∧ kv.1 ≠ "list") →
      resolve ⟨sch, host, path, q ++ e⟩ = resolve ⟨sch, host, path, q⟩ ∧
      resolve ⟨sch, host, path, e ++ q⟩ = resolve ⟨sch, host, path, q⟩) ∧
    (∀ (sch host vid : String) (q : List (String × String)),
      recognizedHost host = true → q.lookup "v" = some vid →
      resolve ⟨sch, host, ["watch"], q⟩ = some (EntityKind.video, vid)) ∧
    (∀ (sch host pl : String) (q : List (String × String)),
      recognizedHost host = true → q.lookup "list" = some pl →
      resolve ⟨sch, host, ["playlist"], q⟩ = some (EntityKind.playlist, pl)) ∧
    (∀ (sch host vid : String) (q : List (String × String)),
      recognizedHost host = true →
      resolve ⟨sch, host, ["shorts", vid], q⟩ = some (EntityKind.video, vid)) ∧
    (∀ (sch host cid : String) (q : List (String × String)),
      recognizedHost host = true →
      resolve ⟨sch, host, ["channel", cid], q⟩ = some (EntityKind.channel, cid)) ∧
    (∀ (sch host name : String) (q : List (String × String)),
      recognizedHost host = true →
      resolve ⟨sch, host, ["user", name], q⟩ = some (EntityKind.channel, name)) ∧
    (∀ (sch host name : String) (q : List (String × String)),
      recognizedHost host = true →
      resolve ⟨sch, host, ["c", name], q⟩ = some (EntityKind.channel, name)) ∧
    (∀ (sch host seg : String) (q : List (String × String)),
      recognizedHost host = true → seg.startsWith "@" = true →
      seg ≠ "watch" → seg ≠ "playlist" →
      resolve ⟨sch, host, [seg], q⟩ = some (EntityKind.channel, seg.drop 1)) ∧
    (∀ (sch vid : String) (q : List (String × String)),
      resolve ⟨sch, "youtu.be", [vid], q⟩ = some (EntityKind.video, vid)) := by
  refine ⟨fun u1 u2 h => h ▸ rfl,
    fun sch1 sch2 host path query => resolve_scheme_irrelevant sch1 sch2 host path query,
    fun sch host1 host2 path query h1 h2 =>
      resolve_host_variant sch host1 host2 path query h1 h2,
    ?_, ?_, ?_,
    fun sch host vid q hh => resolve_shorts sch host vid q hh,
    fun sch host cid q hh => resolve_channel_id sch host cid q hh,
    fun sch host name q hh => resolve_user sch host name q hh,
    fun sch host name q hh => resolve_legacy_c sch host name q hh,
    fun sch host seg q hh hat hw hp => resolve_handle sch host seg q hh hat hw hp,
    fun sch vid q => resolve_short_host sch vid q⟩
  · intro sch host path q e he
    constructor
    · exact resolve_query_lookup sch host path (q ++ e) q
        (lookup_append_no_key_right "v" q e fun kv hm => (he kv hm).1)
        (lookup_append_no_key_right "list" q e fun kv hm => (he kv hm).2)
    · exact resolve_query_lookup sch host path (e ++ q) q
        (lookup_append_no_key_left "v" e q fun kv hm => (he kv hm).1)
        (lookup_append_no_key_left "list" e q fun kv hm => (he kv hm).2)
  · intro sch host vid q hh hv
    rw [resolve_watch sch host q hh, hv]
    rfl
  · intro sch host pl q hh hl
    rw [resolve_playlist sch host q hh, hl]
    rfl

/-- Witness for C6: a watch URL with an extra surrounding query parameter resolves
identically across two recognized hosts. -/
theorem resolve_deterministic_syntactic_witness :
    recognizedHost "www.youtube.com" = true ∧ recognizedHost "m.youtube.com" = true ∧
    resolve ⟨"https", "www.youtube.com", ["watch"],
      [("v", "abc"), ("t", "42")]⟩ =
      resolve ⟨"https", "m.youtube.com", ["watch"], [("v", "abc"), ("t", "42")]⟩ :=
  ⟨rfl, rfl,
    resolve_deterministic_syntactic.2.2.1 "https" "www.youtube.com" "m.youtube.com"
      ["watch"] [("v", "abc"), ("t", "42")] rfl rfl⟩

/-! ## Transcript Cache (spec section 4.5) and client transcript fetch (Sidebar.jsx) -/

/-- A transcript payload: plain text plus chapter spans. -/
structure TranscriptData where
  plain_text : String
  chapters : List Chapter
  deriving Repr, DecidableEq

/-- The result of GetTranscript (spec section 4.5). -/
inductive TranscriptResult where
  | found (t : TranscriptData)
  | notFound
  | providerError (msg : String)
  deriving Repr, DecidableEq

/-- Modelled from the spec: GetTranscript(videoId, forceRefresh) over the cached
state for one video (spec section 4.5). The cache state is none when never fetched,
some none for a cached NotFound (a valid terminal state), some (some t) for a cached
transcript. The provider is a call-count stub: the returned Nat counts provider
calls made. A provider error is surfaced without being cached; NotFound and found
results are cached; a non-forced call on a cached state makes no provider call. The
transcript cache implementation is not among the provided sources. -/
def getTranscript (provider : Except String (Option TranscriptData))
    (forceRefresh : Bool) (cache : Option (Option TranscriptData)) :
    TranscriptResult × Option (Option TranscriptData) × Nat :=
  match cache, forceRefresh with
  | some (some t), false => (.found t, some (some t), 0)
  | some none, false => (.notFound, some none, 0)
  | _, _ =>
    match provider with
    | .error m => (.providerError m, cache, 1)
    | .ok none => (.notFound, some none, 1)
    | .ok (some t) =>
        (.found { t with chapters := sortChapters t.chapters },
          some (some { t with chapters := sortChapters t.chapters }), 1)

/-- A transcript HTTP response as seen by the client. -/
inductive TranscriptResp where
  | okJson (plain_text : Option String) (chapters : Option (List Chapter))
  | status404
  | failed (detail : String)
  deriving Repr, DecidableEq

/-- The transcript part of the client state of VideoDetailView. -/
structure TranscriptUiState where
  transcriptPlainText : Option String
  transcriptChapters : List Chapter
  transcriptError : Option String
  deriving Repr, DecidableEq

/-- Embeds fetchTranscript of Sidebar.jsx (lines 424-445): the state is reset, then
a 404 response yields null data (no transcript text, no error), an ok response sets
plain_text and chapters (or [] when absent), and any other failing response sets
transcriptError. -/
def fetchTranscript (r : TranscriptResp) : TranscriptUiState :=
  match r with
  | .okJson p cs =>
      { transcriptPlainText := p, transcriptChapters := cs.getD [],
        transcriptError := none }
  | .status404 =>
      { transcriptPlainText := none, transcriptChapters := [],
        transcriptError := none }
  | .failed d =>
      { transcriptPlainText := none, transcriptChapters := [],
        transcriptError := some d }

/-- C3: a missing transcript is cached as a terminal NotFound distinct from
ProviderError — the first call from an empty cache makes one provider call and
returns NotFound, and any second non-forced call returns NotFound with zero
provider calls; in the client, a 404 transcript response produces no transcript
text and no error state, while any other failing response sets a transcript
error. -/
theorem getTranscript_notFound_terminal_cached :
    getTranscript (Except.ok none) false none =
      (TranscriptResult.notFound, some none, 1) ∧
    (∀ provider2 : Except String (Option TranscriptData),
      getTranscript provider2 false (some none) =
        (TranscriptResult.notFound, some none, 0)) ∧
    (∀ m : String, TranscriptResult.notFound ≠ TranscriptResult.providerError m) ∧
    fetchTranscript TranscriptResp.status404 =
      { transcriptPlainText := none, transcriptChapters := [],
        transcriptError := none } ∧
    (∀ d : String,
      (fetchTranscript (TranscriptResp.failed d)).transcriptError = some d ∧
      (fetchTranscript (TranscriptResp.failed d)).transcriptPlainText = none) := by
  refine ⟨rfl, fun provider2 => rfl, fun m h => ?_, rfl, fun d => ⟨rfl, rfl⟩⟩
  cases h

/-! ## UpdateVideo facade (spec section 4.6) and client update flow (Sidebar.jsx) -/

/-- Modelled from the spec: UpdateVideo(id) re-runs SyncVideo and then
GetTranscript(forceRefresh = true); the two outcomes are reported independently as
a pair — metadata refresh can succeed while transcript refresh fails and vice
versa — never a single combined boolean (spec sections 4.6 and 7). The facade
implementation is not among the provided sources. -/
def updateVideo (metaFetch : Except String VideoPayload)
    (transcriptFetch : Except String (Option TranscriptData)) (s : Store)
    (cache : Option (Option TranscriptData)) :
    (Except String Store × TranscriptResult) × Store × Option (Option TranscriptData) :=
  let s1 : Store :=
    match metaFetch with
    | .error _ => s
    | .ok p => syncVideo p s
  let metaOutcome : Except String Store :=
    match metaFetch with
    | .error m => Except.error m
    | .ok _ => Except.ok s1
  let t := getTranscript transcriptFetch true cache
  ((metaOutcome, t.1), s1, t.2.1)

/-- A video-details JSON record as consumed by the client detail view. -/
structure DetailsJson where
  id : String
  title : String
  downloaded : Int
  file_path : Option String
  deriving Repr, DecidableEq

/-- The details part of the client state of VideoDetailView. -/
structure DetailsUiState where
  details : Option DetailsJson
  error : Option String
  deriving Repr, DecidableEq

/-- Embeds fetchVideoDetails of Sidebar.jsx (lines 409-422): an ok response stores
the data with no error; a failing response stores the error message. -/
def fetchVideoDetails (r : Except String DetailsJson) : DetailsUiState :=
  match r with
  | .ok d => { details := some d, error := none }
  | .error m => { details := none, error := some m }

/-- Embeds the refetch performed by handleUpdate of Sidebar.jsx (lines 475-500):
after the update it calls fetchVideoDetails and fetchTranscript, each keeping its
own error state. -/
def afterUpdate (mr : Except String DetailsJson) (tr : TranscriptResp) :
    DetailsUiState × TranscriptUiState :=
  (fetchVideoDetails mr, fetchTranscript tr)

/-- C4: UpdateVideo re-runs SyncVideo and then a forced GetTranscript, and the two
failures are independent: metadata refresh can succeed while transcript refresh
fails and vice versa, each outcome observable separately; forceRefresh always makes
a provider call; in the client the details error and the transcript error are kept
in distinct states that each depend only on their own response. -/
theorem updateVideo_independent_outcomes :
    (∀ (p : VideoPayload) (m : String) (s : Store)
      (cache : Option (Option TranscriptData)),
      (updateVideo (Except.ok p) (Except.error m) s cache).1.1 =
        Except.ok (syncVideo p s) ∧
      (updateVideo (Except.ok p) (Except.error m) s cache).1.2 =
        TranscriptResult.providerError m) ∧
    (∀ (m : String) (t : TranscriptData) (s : Store)
      (cache : Option (Option TranscriptData)),
      (updateVideo (Except.error m) (Except.ok (some t)) s cache).1.1 =
        Except.error m ∧
      (updateVideo (Except.error m) (Except.ok (some t)) s cache).1.2 =
        TranscriptResult.found { t with chapters := sortChapters t.chapters }) ∧
    (∀ (tf : Except String (Option TranscriptData))
      (cache : Option (Option TranscriptData)),
      (getTranscript tf true cache).2.2 = 1) ∧
    (∀ (mr : Except String DetailsJson) (tr : TranscriptResp),
      (afterUpdate mr tr).1 = fetchVideoDetails mr ∧
      (afterUpdate mr tr).2 = fetchTranscript tr) ∧
    (∀ (d : DetailsJson) (m : String),
      (afterUpdate (Except.ok d) (TranscriptResp.failed m)).1.error = none ∧
      (afterUpdate (Except.ok d) (TranscriptResp.failed m)).1.details = some d ∧
      (afterUpdate (Except.ok d) (TranscriptResp.failed m)).2.transcriptError =
        some m) ∧
    (∀ (m : String) (p : Option String) (cs : Option (List Chapter)),
      (afterUpdate (Except.error m) (TranscriptResp.okJson p cs)).1.error = some m ∧
      (afterUpdate (Except.error m)
        (TranscriptResp.okJson p cs)).2.transcriptError = none) := by
  refine ⟨?_, ?_, ?_, fun mr tr => ⟨rfl, rfl⟩, fun d m => ⟨rfl, rfl, rfl⟩,
    fun m p cs => ⟨rfl, rfl⟩⟩
  · intro p m s cache
    cases cache with
    | none => exact ⟨rfl, rfl⟩
    | some c => cases c <;> exact ⟨rfl, rfl⟩
  · intro m t s cache
    cases cache with
    | none => exact ⟨rfl, rfl⟩
    | some c => cases c <;> exact ⟨rfl, rfl⟩
  · intro tf cache
    cases cache with
    | none => cases tf with
      | error m => rfl
      | ok t => cases t <;> rfl
    | some c =>
      cases c <;> cases tf with
      | error m => rfl
      | ok t => cases t <;> rfl

/-! ## ProcessURL result display (App.jsx, ResultDisplay in unnamed part_003) -/

/-- A channel summary as present in a ProcessURL result. -/
structure ChannelSummary where
  name : String
  deriving Repr, DecidableEq

/-- A video summary as present in a ProcessURL result. -/
structure VideoSummary where
  title : String
  deriving Repr, DecidableEq

/-- A playlist summary as present in a ProcessURL result. -/
structure PlaylistSummary where
  title : String
  deriving Repr, DecidableEq

/-- The JSON result of ProcessURL as held in lastResult by App and passed to
ResultDisplay. -/
structure ProcessResult where
  error : Option String
  channel : Option ChannelSummary
  video : Option VideoSummary
  playlist : Option PlaylistSummary
  deriving Repr, DecidableEq

/-- What ResultDisplay renders. -/
inductive Rendered where
  | nothing
  | errorCard (msg : String)
  | summary (kind : EntityKind)
  deriving Repr, DecidableEq

/-- Embeds ResultDisplay (unnamed part_003 lines 84-99): a null result renders
nothing; a truthy error field renders an error card; otherwise the item is
result.channel, or result.video, or result.playlist, in that order of precedence,
and a result with none of them renders nothing. -/
def resultDisplay (r : Option ProcessResult) : Rendered :=
  match r with
  | none => Rendered.nothing
  | some res =>
    if jsTruthyStr res.error then Rendered.errorCard (res.error.getD "")
    else if res.channel.isSome then Rendered.summary EntityKind.channel
    else if res.video.isSome then Rendered.summary EntityKind.video
    else if res.playlist.isSome then Rendered.summary EntityKind.playlist
    else Rendered.nothing

/-- C7: every ProcessURL result shown as the last processed item is classified as
exactly one of channel, video or playlist, channel taking precedence over video and
video over playlist; a result carrying a (truthy) error field renders an error card
instead, and a result with none of these fields renders nothing. -/
theorem resultDisplay_classification (res : ProcessResult) :
    (∀ m : String, res.error = some m → m ≠ "" →
      resultDisplay (some res) = Rendered.errorCard m) ∧
    (jsTruthyStr res.error = false → res.channel = none → res.video = none →
      res.playlist = none → resultDisplay (some res) = Rendered.nothing) ∧
    (jsTruthyStr res.error = false → ∀ c, res.channel = some c →
      resultDisplay (some res) = Rendered.summary EntityKind.channel) ∧
    (jsTruthyStr res.error = false → res.channel = none → ∀ v, res.video = some v →
      resultDisplay (some res) = Rendered.summary EntityKind.video) ∧
    (jsTruthyStr res.error = false → res.channel = none → res.video = none →
      ∀ pl, res.playlist = some pl →
      resultDisplay (some res) = Rendered.summary EntityKind.playlist) ∧
    resultDisplay none = Rendered.nothing := by
  refine ⟨?_, ?_, ?_, ?_, ?_, rfl⟩
  · intro m hm hne
    simp [resultDisplay, jsTruthyStr, hm, hne]
  · intro he hc hv hp
    simp [resultDisplay, he, hc, hv, hp]
  · intro he c hc
    simp [resultDisplay, he, hc]
  · intro he hc v hv
    simp [resultDisplay, he, hc, hv]
  · intro he hc hv pl hp
    simp [resultDisplay, he, hc, hv, hp]

/-- Witness for C7: with both a channel and a video present and no error, the card
shown is the channel card. -/
theorem resultDisplay_classification_witness :
    jsTruthyStr (ProcessResult.error
      { error := none, channel := some { name := "c" },
        video := some { title := "v" }, playlist := none }) = false ∧
    resultDisplay (some
      { error := none, channel := some { name := "c" },
        video := some { title := "v" }, playlist := none }) =
      Rendered.summary EntityKind.channel :=
  ⟨rfl,
    (resultDisplay_classification
      { error := none, channel := some { name := "c" },
        video := some { title := "v" }, playlist := none }).2.2.1 rfl
      { name := "c" } rfl⟩

/-! ## Channel listing order (frontend/src/components/ChannelList.jsx) -/

/-- A channel item as listed by the backend and shown in the channel grid. -/
structure ChannelItem where
  id : String
  name : String
  deriving Repr, DecidableEq

/-- Embeds ChannelList.jsx line 100:
data.sort((a, b) => a.name.localeCompare(b.name)) — a stable ascending sort by
channel name; locale comparison is modelled by the lexicographic order on
strings. -/
def sortChannelsByName (l : List ChannelItem) : List ChannelItem :=
  List.insertionSort (fun a b => a.name ≤ b.name) l

/-- C8: the channel listing is presented sorted ascending by channel name, the
output is a permutation of the fetched channels, and the order is deterministic:
two fetches of the same set of channels (with pairwise distinct names) display the
same order. -/
theorem channelList_sorted_deterministic :
    (∀ l : List ChannelItem,
      (sortChannelsByName l).Pairwise (fun a b => a.name ≤ b.name) ∧
      (sortChannelsByName l).Perm l) ∧
    (∀ l1 l2 : List ChannelItem, l1.Perm l2 →
      (l1.map (fun c => c.name)).Nodup →
      sortChannelsByName l1 = sortChannelsByName l2) := by
  haveI hto : IsTotal ChannelItem (fun a b => a.name ≤ b.name) :=
    ⟨fun a b => le_total a.name b.name⟩
  haveI htr : IsTrans ChannelItem (fun a b => a.name ≤ b.name) :=
    ⟨fun _ _ _ h1 h2 => le_trans h1 h2⟩
  have hsorted : ∀ l : List ChannelItem,
      (sortChannelsByName l).Pairwise (fun a b => a.name ≤ b.name) :=
    fun l => List.sorted_insertionSort _ l
  have hperm : ∀ l : List ChannelItem, (sortChannelsByName l).Perm l :=
    fun l => List.perm_insertionSort _ l
  refine ⟨fun l => ⟨hsorted l, hperm l⟩, ?_⟩
  intro l1 l2 hp hnd
  haveI : IsAntisymm ChannelItem (fun a b => a.name < b.name) :=
    ⟨fun _ _ h1 h2 => (lt_asymm h1 h2).elim⟩
  have hstrict : ∀ l : List ChannelItem, (l.map (fun c => c.name)).Nodup →
      (sortChannelsByName l).Pairwise (fun a b => a.name < b.name) := by
    intro l hl
    have hnd2 : ((sortChannelsByName l).map (fun c => c.name)).Nodup :=
      (((hperm l).map (fun c => c.name)).nodup_iff).mpr hl
    have hne : (sortChannelsByName l).Pairwise (fun a b => a.name ≠ b.name) :=
      List.pairwise_map.mp hnd2
    exact ((hsorted l).and hne).imp fun h => lt_of_le_of_ne h.1 h.2
  have hnd2 : (l2.map (fun c => c.name)).Nodup :=
    ((hp.map (fun c => c.name)).nodup_iff).mp hnd
  have hp2 : (sortChannelsByName l1).Perm (sortChannelsByName l2) :=
    ((hperm l1).trans hp).trans (hperm l2).symm
  exact List.eq_of_perm_of_sorted hp2 (hstrict l1 hnd) (hstrict l2 hnd2)

/-- Witness for C8: two fetch orders of the same two channels sort identically. -/
theorem channelList_sorted_deterministic_witness :
    ([⟨"id1", "beta"⟩, ⟨"id2", "alpha"⟩] : List ChannelItem).Perm
      [⟨"id2", "alpha"⟩, ⟨"id1", "beta"⟩] ∧
    (([⟨"id1", "beta"⟩, ⟨"id2", "alpha"⟩] : List ChannelItem).map
      (fun c => c.name)).Nodup ∧
    sortChannelsByName [⟨"id1", "beta"⟩, ⟨"id2", "alpha"⟩] =
      sortChannelsByName [⟨"id2", "alpha"⟩, ⟨"id1", "beta"⟩] :=
  ⟨List.Perm.swap _ _ _, by decide,
    channelList_sorted_deterministic.2 _ _ (List.Perm.swap _ _ _) (by decide)⟩

/-! ## Q&A session management (Sidebar.jsx VideoDetailView) -/

/-- The browser sessionStorage, a string key-value map. -/
structure SessionStorage where
  entries : List (String × String)
  deriving Repr, DecidableEq

/-- Embeds the storage key chat_session_{videoId} of Sidebar.jsx line 452. -/
def storageKey (videoId : String) : String :=
  "chat_session_" ++ videoId

/-- Embeds the session-management block of the VideoDetailView useEffect
(Sidebar.jsx lines 447-473): restore the stored session id when present; otherwise
generate a fresh id (crypto.randomUUID modelled as the freshId argument), store it
under the storage key, and use it. The Bool records whether a new id was
generated. -/
def ensureSession (videoId freshId : String) (st : SessionStorage) :
    String × SessionStorage × Bool :=
  match st.entries.lookup (storageKey videoId) with
  | some sid => (sid, st, false)
  | none => (freshId, ⟨upsertRow (storageKey videoId) freshId st.entries⟩, true)

/-- A transcript Q&A request as posted by handleQuerySubmit. -/
structure AskRequest where
  videoId : String
  query : String
  session_id : String
  deriving Repr, DecidableEq

/-- A string is blank when every character is whitespace — exactly when the
JavaScript query.trim() is empty. -/
def isBlank (s : String) : Bool :=
  s.data.all Char.isWhitespace

/-- Embeds handleQuerySubmit of Sidebar.jsx (lines 502-517): no request is posted
when the trimmed query is empty (isBlank models the falsiness of query.trim()) or
no session id exists; otherwise the posted request carries the video id, the query
text and the session id. -/
def handleQuerySubmit (videoId queryText : String) (sessionId : Option String) :
    Option AskRequest :=
  match sessionId with
  | none => none
  | some sid =>
    if isBlank queryText then none
    else some { videoId := videoId, query := queryText, session_id := sid }

/-- C9: the client generates a session identifier at most once per video — a second
visit to the same video returns the stored id, generates no new one and leaves the
storage unchanged; every submitted question carries the session id together with
the video id and the query text; and no request is posted when the query is blank
or no session id exists. -/
theorem session_generated_once_and_carried :
    (∀ (v f1 f2 : String) (st : SessionStorage),
      (ensureSession v f2 (ensureSession v f1 st).2.1).1 = (ensureSession v f1 st).1 ∧
      (ensureSession v f2 (ensureSession v f1 st).2.1).2.1 =
        (ensureSession v f1 st).2.1 ∧
      (ensureSession v f2 (ensureSession v f1 st).2.1).2.2 = false) ∧
    (∀ (v f : String) (st : SessionStorage),
      (ensureSession v f st).2.1.entries.lookup (storageKey v) =
        some (ensureSession v f st).1) ∧
    (∀ v q : String, handleQuerySubmit v q none = none) ∧
    (∀ v q sid : String, isBlank q = true → handleQuerySubmit v q (some sid) = none) ∧
    (∀ (v q sid : String) (req : AskRequest),
      handleQuerySubmit v q (some sid) = some req →
      req.videoId = v ∧ req.query = q ∧ req.session_id = sid) := by
  have hlook : ∀ (v f : String) (st : SessionStorage),
      (ensureSession v f st).2.1.entries.lookup (storageKey v) =
        some (ensureSession v f st).1 := by
    intro v f st
    cases hl : st.entries.lookup (storageKey v) with
    | some sid =>
      have he : ensureSession v f st = (sid, st, false) := by
        unfold ensureSession; rw [hl]
      rw [he, hl]
    | none =>
      have he : ensureSession v f st =
          (f, ⟨upsertRow (storageKey v) f st.entries⟩, true) := by
        unfold ensureSession; rw [hl]
      rw [he]
      exact lookup_upsertRow_self (storageKey v) f st.entries
  refine ⟨?_, hlook, fun v q => rfl, ?_, ?_⟩
  · intro v f1 f2 st
    rcases hre : ensureSession v f1 st with ⟨id1, st1, b1⟩
    have h2 := hlook v f1 st
    rw [hre] at h2
    have he2 : ensureSession v f2 st1 = (id1, st1, false) := by
      unfold ensureSession; rw [h2]
    dsimp only
    rw [he2]
    exact ⟨rfl, rfl, rfl⟩
  · intro v q sid ht
    show (if isBlank q then (none : Option AskRequest)
      else some { videoId := v, query := q, session_id := sid }) = none
    rw [if_pos ht]
  · intro v q sid req h
    have h2 : (if isBlank q then (none : Option AskRequest)
        else some { videoId := v, query := q, session_id := sid }) = some req := h
    by_cases ht : isBlank q = true
    · rw [if_pos ht] at h2
      cases h2
    · rw [if_neg ht] at h2
      cases h2
      exact ⟨rfl, rfl, rfl⟩

/-- Witness for C9: a blank query posts no request. -/
theorem session_generated_once_and_carried_witness :
    isBlank "  " = true ∧ handleQuerySubmit "vidX" "  " (some "sess") = none :=
  ⟨by decide,
    session_generated_once_and_carried.2.2.2.1 "vidX" "  " "sess" (by decide)⟩

/-- Witness for C3: the concrete first call and the distinctness from a concrete
provider error. -/
theorem getTranscript_notFound_terminal_cached_witness :
    getTranscript (Except.ok none) false none =
      (TranscriptResult.notFound, some none, 1) ∧
    TranscriptResult.notFound ≠ TranscriptResult.providerError "boom" :=
  ⟨getTranscript_notFound_terminal_cached.1,
    getTranscript_notFound_terminal_cached.2.2.1 "boom"⟩
